import Mathlib

/-!
Shallow embedding of the document-understanding core of the Code_Agent
repository (desktop_app/parsing/code_parser.py, parsing/problem_parser.py,
preprocessing/image_processor.py, ocr/ocr_engine.py), together with proofs
about the spec's claims.

The parsers are regex cascades (Python `re`).  We embed them over a small
backtracking regex interpreter (`mrun`) that follows Python `re` semantics:
leftmost search, greedy/lazy quantifiers with backtracking, ordered
alternation, capturing groups (last match wins), `(?=...)` lookahead, `^`
(optionally MULTILINE) and `$` (end, or just before a final newline).
Each Python pattern of the source is transliterated node by node into an
`RE` value next to its use site.  The interpreter consumes fuel on every
step; `matchFuel` is a safe over-approximation of the recursion depth
(fuel only runs out on inputs far larger than any bound used here, and
every theorem below is stated through the fueled functions themselves).
-/

/-- Python `\w` on ASCII input: `[a-zA-Z0-9_]`. -/
def isWordCh (c : Char) : Bool := c.isAlpha || c.isDigit || c = '_'

/-- Python `\s`: space, tab, newline, carriage return, form feed, vertical tab. -/
def isSpaceCh (c : Char) : Bool :=
  c = ' ' || c = '\t' || c = '\n' || c = '\x0d' || c = '\x0c' || c = '\x0b'

/-- Python `\d` on ASCII input. -/
def isDigitCh (c : Char) : Bool := c.isDigit

/-- Regular-expression syntax (the fragment used by the repository). -/
inductive RE where
  | eps
  | cls (p : Char → Bool)
  | seq (a b : RE)
  | alt (a b : RE)
  | star (lz : Bool) (r : RE)
  | group (i : Nat) (r : RE)
  | look (r : RE)
  | bol (multiline : Bool)
  | eol
deriving Inhabited

/-- Concatenation of a list of regexes. -/
def RE.cat (rs : List RE) : RE := rs.foldr RE.seq RE.eps

/-- Literal string. -/
def RE.lit (s : String) : RE := RE.cat (s.toList.map fun c => RE.cls (fun d => d = c))

/-- Greedy `r?`. -/
def RE.opt (r : RE) : RE := RE.alt r RE.eps

/-- Greedy `r+`. -/
def RE.plus (r : RE) : RE := RE.seq r (RE.star false r)

/-- Character class `[...]` given by a char list. -/
def RE.anyOf (s : String) : RE := RE.cls (fun c => s.toList.contains c)

/-- The `.` without DOTALL: anything but newline. -/
def RE.dot : RE := RE.cls (fun c => c ≠ '\n')

/-- The `.` with DOTALL. -/
def RE.dotAll : RE := RE.cls (fun _ => true)

/-- Ordered alternation of several branches. -/
def RE.alts (rs : List RE) : RE :=
  match rs with
  | [] => RE.eps
  | [r] => r
  | r :: rest => RE.alt r (RE.alts rest)

/-- Number of syntax nodes, used to budget the interpreter's fuel. -/
def RE.size : RE → Nat
  | .eps => 1
  | .cls _ => 1
  | .seq a b => 1 + a.size + b.size
  | .alt a b => 1 + a.size + b.size
  | .star _ r => 1 + r.size
  | .group _ r => 1 + r.size
  | .look r => 1 + r.size
  | .bol _ => 1
  | .eol => 1

/-- Capture map: group index to (start, end) positions. -/
def Caps := Nat → Option (Nat × Nat)

def Caps.empty : Caps := fun _ => none

def Caps.set (cs : Caps) (i a b : Nat) : Caps :=
  fun j => if j = i then some (a, b) else cs j

/-- Backtracking interpreter, CPS style.  `rem` is the rest of the subject,
`pos` the absolute position, `lst` the character just before `pos`.
The continuation receives the state after the current node; `none`
propagates failure, which triggers the enclosing alternative, exactly as
Python's backtracking engine does.  Quantifier bodies must make progress
(`pos < p`), mirroring CPython's refusal to loop on an empty repeat (all
quantifier bodies in the repository consume at least one character).
-/
def mrun : Nat → RE → List Char → Nat → Option Char → Caps →
    (List Char → Nat → Option Char → Caps → Option (Nat × Caps)) → Option (Nat × Caps)
  | 0, _, _, _, _, _, _ => none
  | fuel + 1, re, rem, pos, lst, caps, k =>
    match re with
    | .eps => k rem pos lst caps
    | .cls p =>
      match rem with
      | [] => none
      | c :: rest => if p c then k rest (pos + 1) (some c) caps else none
    | .seq a b =>
      mrun fuel a rem pos lst caps (fun r' p' l' c' => mrun fuel b r' p' l' c' k)
    | .alt a b =>
      (mrun fuel a rem pos lst caps k).orElse (fun _ => mrun fuel b rem pos lst caps k)
    | .group i r =>
      mrun fuel r rem pos lst caps (fun r' p' l' c' => k r' p' l' (c'.set i pos p'))
    | .look r =>
      match mrun fuel r rem pos lst caps (fun _ p' _ c' => some (p', c')) with
      | some _ => k rem pos lst caps
      | none => none
    | .bol ml =>
      if pos = 0 ∨ (ml ∧ lst = some '\n') then k rem pos lst caps else none
    | .eol =>
      if rem = [] ∨ rem = ['\n'] then k rem pos lst caps else none
    | .star lz r =>
      let more := fun (r' : List Char) (p' : Nat) (l' : Option Char) (c' : Caps) =>
        if pos < p' then mrun fuel (.star lz r) r' p' l' c' k else none
      if lz then
        (k rem pos lst caps).orElse (fun _ => mrun fuel r rem pos lst caps more)
      else
        (mrun fuel r rem pos lst caps more).orElse (fun _ => k rem pos lst caps)

/-- Fuel bound: generous over-approximation of the interpreter's call depth. -/
def matchFuel (r : RE) (s : List Char) : Nat := (r.size + 2) * (s.length + 2) + 16

/-- A regex match: absolute span `[ms, me)` plus the captures. -/
structure MRes where
  ms : Nat
  me : Nat
  caps : Caps

/-- Substring of the subject (char list) from `a` (inclusive) to `b` (exclusive). -/
def sliceStr (s : List Char) (a b : Nat) : String := String.mk ((s.drop a).take (b - a))

/-- Python `match.group i` (with `i = 0` the whole match); `none` when the group
did not participate. -/
def MRes.grp (m : MRes) (s : List Char) (i : Nat) : Option String :=
  if i = 0 then some (sliceStr s m.ms m.me)
  else (m.caps i).map (fun ab => sliceStr s ab.1 ab.2)

/-- Truthiness of `match.group i` in Python: participating and non-empty. -/
def pyTruthy (o : Option String) : Bool :=
  match o with
  | none => false
  | some s => s ≠ ""

/-- Attempt an anchored match of `r` at position `pos` of the subject. -/
def matchAt (r : RE) (s : List Char) (rem : List Char) (pos : Nat) (lst : Option Char) :
    Option MRes :=
  match mrun (matchFuel r s) r rem pos lst Caps.empty (fun _ p' _ c' => some (p', c')) with
  | some (e, cps) => some ⟨pos, e, cps⟩
  | none => none

/-- Python `re.match`: anchored at the start of the subject. -/
def reMatch (r : RE) (s : String) : Option MRes :=
  matchAt r s.toList s.toList 0 none

/-- Leftmost search: try every start position in order (`re.search`). -/
def searchAux (r : RE) (s : List Char) :
    Nat → List Char → Nat → Option Char → Option MRes
  | 0, _, _, _ => none
  | fuel + 1, rem, pos, lst =>
    match matchAt r s rem pos lst with
    | some m => some m
    | none =>
      match rem with
      | [] => none
      | c :: rest => searchAux r s fuel rest (pos + 1) (some c)

/-- Python `re.search`. -/
def reSearch (r : RE) (s : String) : Option MRes :=
  searchAux r s.toList (s.toList.length + 1) s.toList 0 none

/-- List-level worker for `pyStrip`. -/
def stripList (l : List Char) : List Char :=
  ((l.dropWhile isSpaceCh).reverse.dropWhile isSpaceCh).reverse

/-- Python `str.strip()`. -/
def pyStrip (s : String) : String := String.mk (stripList s.toList)

/-- Worker for `pyReplace`: left-to-right, non-overlapping replacement. -/
def replFuel (pat rep : List Char) : Nat → List Char → List Char
  | 0, s => s
  | fuel + 1, s =>
    match s with
    | [] => []
    | c :: rest =>
      if pat ≠ [] ∧ pat.isPrefixOf s then rep ++ replFuel pat rep fuel (s.drop pat.length)
      else c :: replFuel pat rep fuel rest

/-- Python `str.replace` (all occurrences, left to right). -/
def pyReplace (s pat rep : String) : String :=
  String.mk (replFuel pat.toList rep.toList (s.toList.length + 1) s.toList)

/-- Worker for `pySplit`. -/
def pySplitGo (sep : List Char) : Nat → List Char → List Char → List String
  | 0, cur, _ => [String.mk cur.reverse]
  | fuel + 1, cur, s =>
    match s with
    | [] => [String.mk cur.reverse]
    | c :: rest =>
      if sep ≠ [] ∧ sep.isPrefixOf s then
        String.mk cur.reverse :: pySplitGo sep fuel [] (s.drop sep.length)
      else pySplitGo sep fuel (c :: cur) rest

/-- Python `str.split(sep)` for a non-empty separator. -/
def pySplit (s sep : String) : List String :=
  pySplitGo sep.toList (s.toList.length + 1) [] s.toList

/-- Worker for `strContains`. -/
def containsGo (sub : List Char) : Nat → List Char → Bool
  | 0, _ => false
  | fuel + 1, s =>
    if sub.isPrefixOf s then true
    else
      match s with
      | [] => false
      | _ :: rest => containsGo sub fuel rest

/-- Python `sub in s` (substring containment). -/
def strContains (s sub : String) : Bool := containsGo sub.toList (s.toList.length + 1) s.toList

/-- The `re.sub` worker: replace matches found from the current point on,
resuming after each match (advancing one character past a zero-width
match, as Python does); `cnt` is the remaining replacement budget
(`none` = unlimited). -/
def subAux (r : RE) (s : List Char) (repl : MRes → List Char → String) :
    Nat → List Char → Nat → Option Char → Option Nat → String
  | 0, rem, pos, _, _ => sliceStr s pos (pos + rem.length)
  | fuel + 1, rem, pos, lst, cnt =>
    if cnt = some 0 then sliceStr s pos (pos + rem.length)
    else
      match searchAux r s (rem.length + 1) rem pos lst with
      | none => sliceStr s pos (pos + rem.length)
      | some m =>
        let cnt' := cnt.map (· - 1)
        let pre := sliceStr s pos m.ms
        if m.me ≤ m.ms then
          match s.drop m.ms with
          | [] => pre ++ repl m s
          | c :: rest =>
            pre ++ repl m s ++ String.mk [c] ++
              subAux r s repl fuel rest (m.ms + 1) (some c) cnt'
        else
          pre ++ repl m s ++
            subAux r s repl fuel (s.drop m.me) m.me ((s.take m.me).getLast?) cnt'

/-- Python `re.sub(r, repl, s, count)`; `count = none` means unlimited. -/
def reSubCount (r : RE) (repl : MRes → List Char → String) (s : String)
    (count : Option Nat) : String :=
  subAux r s.toList repl (s.toList.length + 2) s.toList 0 none count

/-- Python `re.sub(r, repl, s)`. -/
def reSub (r : RE) (repl : MRes → List Char → String) (s : String) : String :=
  reSubCount r repl s none

/-- Python `re.finditer`: all non-overlapping matches, left to right. -/
def findIterAux (r : RE) (s : List Char) :
    Nat → List Char → Nat → Option Char → List MRes
  | 0, _, _, _ => []
  | fuel + 1, rem, pos, lst =>
    match searchAux r s (rem.length + 1) rem pos lst with
    | none => []
    | some m =>
      if m.me ≤ m.ms then
        match s.drop m.ms with
        | [] => [m]
        | c :: rest => m :: findIterAux r s fuel rest (m.ms + 1) (some c)
      else
        m :: findIterAux r s fuel (s.drop m.me) m.me ((s.take m.me).getLast?)

/-- Python `re.finditer`. -/
def reFindIter (r : RE) (s : String) : List MRes :=
  findIterAux r s.toList (s.toList.length + 2) s.toList 0 none

/-- The `re.split` worker: collect the pieces between matches. -/
def splitReAux (r : RE) (s : List Char) :
    Nat → List Char → Nat → Option Char → List String
  | 0, rem, pos, _ => [sliceStr s pos (pos + rem.length)]
  | fuel + 1, rem, pos, lst =>
    match searchAux r s (rem.length + 1) rem pos lst with
    | none => [sliceStr s pos (pos + rem.length)]
    | some m =>
      if m.me ≤ m.ms then
        match s.drop m.ms with
        | [] => [sliceStr s pos (pos + rem.length)]
        | c :: rest => sliceStr s pos m.ms :: splitReAux r s fuel rest (m.ms + 1) (some c)
      else
        sliceStr s pos m.ms :: splitReAux r s fuel (s.drop m.me) m.me ((s.take m.me).getLast?)

/-- Python `re.split` (for patterns without capturing groups). -/
def reSplit (r : RE) (s : String) : List String :=
  splitReAux r s.toList (s.toList.length + 2) s.toList 0 none

/-! ## Code Parser (desktop_app/parsing/code_parser.py) -/

/-- The `\s*` -/
def reSS : RE := RE.star false (RE.cls isSpaceCh)
/-- The `\s+` -/
def reSP : RE := RE.plus (RE.cls isSpaceCh)
/-- The `\w+` -/
def reWP : RE := RE.plus (RE.cls isWordCh)
/-- The `\d+` -/
def reDP : RE := RE.plus (RE.cls isDigitCh)

/-- One parsed parameter: `{name, type, default}`. -/
structure Param where
  name : String
  type : String
  default : Option String
deriving DecidableEq, Repr

/-- The structured signature record produced by `CodeParser.parse`. -/
structure CodeSignatureRecord where
  language : String
  function_signature : String
  function_name : String
  parameters : List Param
  return_type : String
  class_context : String
deriving DecidableEq, Repr

namespace CodeParser

/-- The `(\w)([+\-*/=<>])(\w)` (operator-spacing fix in `_clean_code_text`). -/
def reOpSpacing : RE :=
  RE.cat [RE.group 1 (RE.cls isWordCh), RE.group 2 (RE.anyOf "+-*/=<>"),
    RE.group 3 (RE.cls isWordCh)]

/-- The `^\s*\d+\s+` with `re.MULTILINE` (line-number removal). -/
def reLineNum : RE := RE.cat [RE.bol true, reSS, reDP, reSP]

/-- Embedding of `CodeParser._clean_code_text`. -/
def _clean_code_text (t : String) : String :=
  let t := pyReplace t "„" "\""
  let t := pyReplace t "\"" "\""
  let t := pyReplace t "–" "-"
  let t := pyReplace t "—" "-"
  let t := pyReplace t "0bject" "Object"
  let t := pyReplace t "l.ist" "List"
  let t := pyReplace t "l.ist" "List"
  let t := pyReplace t "lnt" "int"
  let t := pyReplace t "retum" "return"
  let t := reSub reOpSpacing
    (fun m s => ((m.grp s 1).getD "") ++ " " ++ ((m.grp s 2).getD "") ++ " " ++
      ((m.grp s 3).getD "")) t
  let t := reSub reLineNum (fun _ _ => "") t
  pyStrip t

/-- The `def\s+\w+\s*\(.*\)\s*:` -/
def reDetPyDef : RE :=
  RE.cat [RE.lit "def", reSP, reWP, reSS, RE.lit "(", RE.star false RE.dot,
    RE.lit ")", reSS, RE.lit ":"]

/-- The `class\s+\w+\s*:` -/
def reDetPyClass : RE := RE.cat [RE.lit "class", reSP, reWP, reSS, RE.lit ":"]

/-- The `public\s+(static\s+)?(class|interface|enum)` -/
def reDetJava1 : RE :=
  RE.cat [RE.lit "public", reSP, RE.opt (RE.group 1 (RE.cat [RE.lit "static", reSP])),
    RE.group 2 (RE.alts [RE.lit "class", RE.lit "interface", RE.lit "enum"])]

/-- The `(public|private|protected)\s+\w+\s+\w+\s*\(.*\)\s*\{` -/
def reDetJava2 : RE :=
  RE.cat [RE.group 1 (RE.alts [RE.lit "public", RE.lit "private", RE.lit "protected"]),
    reSP, reWP, reSP, reWP, reSS, RE.lit "(", RE.star false RE.dot, RE.lit ")",
    reSS, RE.lit "\x7b"]

/-- The `(int|void|bool|char|float|double|long|short|class|struct)\s+\w+\s*\(.*\)\s*\{` -/
def reDetCpp2 : RE :=
  RE.cat [RE.group 1 (RE.alts [RE.lit "int", RE.lit "void", RE.lit "bool", RE.lit "char",
      RE.lit "float", RE.lit "double", RE.lit "long", RE.lit "short", RE.lit "class",
      RE.lit "struct"]),
    reSP, reWP, reSS, RE.lit "(", RE.star false RE.dot, RE.lit ")", reSS, RE.lit "\x7b"]

/-- The `function\s+\w+\s*\(.*\)\s*\{` -/
def reDetJs1 : RE :=
  RE.cat [RE.lit "function", reSP, reWP, reSS, RE.lit "(", RE.star false RE.dot,
    RE.lit ")", reSS, RE.lit "\x7b"]

/-- The `const\s+\w+\s*=` -/
def reDetJsConst : RE := RE.cat [RE.lit "const", reSP, reWP, reSS, RE.lit "="]
/-- The `var\s+\w+\s*=` -/
def reDetJsVar : RE := RE.cat [RE.lit "var", reSP, reWP, reSS, RE.lit "="]
/-- The `let\s+\w+\s*=` -/
def reDetJsLet : RE := RE.cat [RE.lit "let", reSP, reWP, reSS, RE.lit "="]

/-- Embedding of `CodeParser._detect_language`. -/
def _detect_language (t : String) : String :=
  if (reSearch reDetPyDef t).isSome || (reSearch reDetPyClass t).isSome then "python"
  else if (reSearch reDetJava1 t).isSome || (reSearch reDetJava2 t).isSome then "java"
  else if strContains t "#include" || (reSearch reDetCpp2 t).isSome ||
      strContains t "std::" then "cpp"
  else if (reSearch reDetJs1 t).isSome || (reSearch reDetJsConst t).isSome ||
      (reSearch reDetJsVar t).isSome || (reSearch reDetJsLet t).isSome then "javascript"
  else if strContains t "\x7b" && strContains t "\x7d" then
    (if strContains t "public" || strContains t "private" then "java" else "cpp")
  else if strContains t ":" && strContains t "def" then "python"
  else "unknown"

/-- Bracket-depth update of the hand-rolled comma splitter. -/
def bumpDepth (o c : Char) (ch : Char) (d : Int) : Int :=
  if ch = o then d + 1 else if ch = c then d - 1 else d

/-- The comma-splitting loop shared (up to its delimiter pair) by
`_parse_python` (`[`/`]`) and `_parse_java`/`_parse_cpp` (`<`/`>`):
a comma at depth zero closes the current (stripped, non-empty) token. -/
def splitGo (o c : Char) : List Char → Int → List Char → List String → List String
  | [], _, _, acc => acc.reverse
  | ch :: rest, d, cur, acc =>
    if ch = ',' ∧ d = 0 then
      let p := pyStrip (String.mk cur.reverse)
      splitGo o c rest d [] (if p = "" then acc else p :: acc)
    else
      splitGo o c rest (bumpDepth o c ch d) (ch :: cur) acc

/-- Depth-tracked parameter splitting (the source appends a trailing `,`
so the final parameter is processed as well). -/
def splitDepth (o c : Char) (s : String) : List String :=
  splitGo o c (s.toList ++ [',']) 0 [] []

/-- The `(\w+)(?:\s*:\s*([^=]*))?(?:\s*=\s*(.*))?` (Python parameter token). -/
def pyParamRe : RE :=
  RE.cat [RE.group 1 reWP,
    RE.opt (RE.cat [reSS, RE.lit ":", reSS, RE.group 2 (RE.star false (RE.cls (· ≠ '=')))]),
    RE.opt (RE.cat [reSS, RE.lit "=", reSS, RE.group 3 (RE.star false RE.dot)])]

/-- Decomposition of one Python parameter token (`re.match` + the
truthiness tests of the source: an empty `group(2)` gives type `""`,
an empty or absent `group(3)` gives default `None`). -/
def pyParamOf (tok : String) : Option Param :=
  match reMatch pyParamRe tok with
  | none => none
  | some m =>
    let l := tok.toList
    let ptype := match m.grp l 2 with
      | some s => if s ≠ "" then pyStrip s else ""
      | none => ""
    let dflt := match m.grp l 3 with
      | some s => if s ≠ "" then some s else none
      | none => none
    some ⟨(m.grp l 1).getD "", ptype, dflt⟩

/-- The `class\s+(\w+)(?:\(.*\))?\s*:` -/
def pyClassRe : RE :=
  RE.cat [RE.lit "class", reSP, RE.group 1 reWP,
    RE.opt (RE.cat [RE.lit "(", RE.star false RE.dot, RE.lit ")"]), reSS, RE.lit ":"]

/-- The `def\s+(\w+)\s*\((.*?)\)(?:\s*->\s*([^:]*))?\s*:` -/
def pyFuncRe : RE :=
  RE.cat [RE.lit "def", reSP, RE.group 1 reWP, reSS, RE.lit "(",
    RE.group 2 (RE.star true RE.dot), RE.lit ")",
    RE.opt (RE.cat [reSS, RE.lit "->", reSS, RE.group 3 (RE.star false (RE.cls (· ≠ ':')))]),
    reSS, RE.lit ":"]

/-- Embedding of `CodeParser._parse_python`. -/
def _parse_python (t : String) : CodeSignatureRecord :=
  let l := t.toList
  let classCtx := match reSearch pyClassRe t with
    | some m => (m.grp l 0).getD ""
    | none => ""
  match reSearch pyFuncRe t with
  | none => { language := "", function_signature := "", function_name := "",
              parameters := [], return_type := "", class_context := classCtx }
  | some m =>
    let paramsText := (m.grp l 2).getD ""
    { language := ""
      function_signature := (m.grp l 0).getD ""
      function_name := (m.grp l 1).getD ""
      parameters :=
        if paramsText ≠ "" then (splitDepth '[' ']' paramsText).filterMap pyParamOf else []
      return_type := match m.grp l 3 with
        | some s => if s ≠ "" then pyStrip s else ""
        | none => ""
      class_context := classCtx }

/-- The `(?:public|private|protected)?\s*class\s+(\w+)(?:\s+extends\s+\w+)?(?:\s+implements\s+[\w,\s]+)?\s*\{` -/
def javaClassRe : RE :=
  RE.cat [RE.opt (RE.alts [RE.lit "public", RE.lit "private", RE.lit "protected"]), reSS,
    RE.lit "class", reSP, RE.group 1 reWP,
    RE.opt (RE.cat [reSP, RE.lit "extends", reSP, reWP]),
    RE.opt (RE.cat [reSP, RE.lit "implements", reSP,
      RE.plus (RE.cls (fun c => isWordCh c || c = ',' || isSpaceCh c))]),
    reSS, RE.lit "\x7b"]

/-- The `(?:public|private|protected)?\s*(?:static\s+)?(\w+(?:<.*>)?)\s+(\w+)\s*\((.*?)\)\s*(?:throws\s+[\w,\s]+)?\s*\{` -/
def javaMethodRe : RE :=
  RE.cat [RE.opt (RE.alts [RE.lit "public", RE.lit "private", RE.lit "protected"]), reSS,
    RE.opt (RE.cat [RE.lit "static", reSP]),
    RE.group 1 (RE.cat [reWP, RE.opt (RE.cat [RE.lit "<", RE.star false RE.dot, RE.lit ">"])]),
    reSP, RE.group 2 reWP, reSS, RE.lit "(", RE.group 3 (RE.star true RE.dot), RE.lit ")",
    reSS, RE.opt (RE.cat [RE.lit "throws", reSP,
      RE.plus (RE.cls (fun c => isWordCh c || c = ',' || isSpaceCh c))]),
    reSS, RE.lit "\x7b"]

/-- The `([\w<>[\],\s]+)\s+(\w+)` (Java parameter token). -/
def javaParamRe : RE :=
  RE.cat [RE.group 1 (RE.plus (RE.cls (fun c =>
      isWordCh c || c = '<' || c = '>' || c = '[' || c = ']' || c = ',' || isSpaceCh c))),
    reSP, RE.group 2 reWP]

/-- Decomposition of one Java parameter token. -/
def javaParamOf (tok : String) : Option Param :=
  match reMatch javaParamRe tok with
  | none => none
  | some m =>
    let l := tok.toList
    some ⟨(m.grp l 2).getD "", pyStrip ((m.grp l 1).getD ""), none⟩

/-- Embedding of `CodeParser._parse_java`. -/
def _parse_java (t : String) : CodeSignatureRecord :=
  let l := t.toList
  let classCtx := match reSearch javaClassRe t with
    | some m => (m.grp l 0).getD ""
    | none => ""
  match reSearch javaMethodRe t with
  | none => { language := "", function_signature := "", function_name := "",
              parameters := [], return_type := "", class_context := classCtx }
  | some m =>
    let paramsText := (m.grp l 3).getD ""
    { language := ""
      function_signature := (m.grp l 0).getD ""
      function_name := (m.grp l 2).getD ""
      parameters :=
        if paramsText ≠ "" then (splitDepth '<' '>' paramsText).filterMap javaParamOf else []
      return_type := (m.grp l 1).getD ""
      class_context := classCtx }

/-- The `(?:class|struct)\s+(\w+)(?:\s*:\s*(?:public|private|protected)\s+\w+)?\s*\{` -/
def cppClassRe : RE :=
  RE.cat [RE.alt (RE.lit "class") (RE.lit "struct"), reSP, RE.group 1 reWP,
    RE.opt (RE.cat [reSS, RE.lit ":", reSS,
      RE.alts [RE.lit "public", RE.lit "private", RE.lit "protected"], reSP, reWP]),
    reSS, RE.lit "\x7b"]

/-- The `([\w:]+(?:<.*>)?(?:\s+[\w:]+)*)\s+(\w+)\s*\((.*?)\)(?:\s*const)?\s*(?:noexcept)?\s*(?:->.*?)?\s*\{` -/
def cppFuncRe : RE :=
  RE.cat [RE.group 1 (RE.cat [RE.plus (RE.cls (fun c => isWordCh c || c = ':')),
      RE.opt (RE.cat [RE.lit "<", RE.star false RE.dot, RE.lit ">"]),
      RE.star false (RE.cat [reSP, RE.plus (RE.cls (fun c => isWordCh c || c = ':'))])]),
    reSP, RE.group 2 reWP, reSS, RE.lit "(", RE.group 3 (RE.star true RE.dot), RE.lit ")",
    RE.opt (RE.cat [reSS, RE.lit "const"]), reSS, RE.opt (RE.lit "noexcept"), reSS,
    RE.opt (RE.cat [RE.lit "->", RE.star true RE.dot]), reSS, RE.lit "\x7b"]

/-- The `([\w<>[\]:,\s&*]+)\s+(\w+)(?:\s*=\s*(.*))?` (C++ parameter token). -/
def cppParamRe : RE :=
  RE.cat [RE.group 1 (RE.plus (RE.cls (fun c =>
      isWordCh c || c = '<' || c = '>' || c = '[' || c = ']' || c = ':' || c = ',' ||
        isSpaceCh c || c = '&' || c = '*'))),
    reSP, RE.group 2 reWP,
    RE.opt (RE.cat [reSS, RE.lit "=", reSS, RE.group 3 (RE.star false RE.dot)])]

/-- Decomposition of one C++ parameter token. -/
def cppParamOf (tok : String) : Option Param :=
  match reMatch cppParamRe tok with
  | none => none
  | some m =>
    let l := tok.toList
    let dflt := match m.grp l 3 with
      | some s => if s ≠ "" then some s else none
      | none => none
    some ⟨(m.grp l 2).getD "", pyStrip ((m.grp l 1).getD ""), dflt⟩

/-- Embedding of `CodeParser._parse_cpp`. -/
def _parse_cpp (t : String) : CodeSignatureRecord :=
  let l := t.toList
  let classCtx := match reSearch cppClassRe t with
    | some m => (m.grp l 0).getD ""
    | none => ""
  match reSearch cppFuncRe t with
  | none => { language := "", function_signature := "", function_name := "",
              parameters := [], return_type := "", class_context := classCtx }
  | some m =>
    let paramsText := (m.grp l 3).getD ""
    { language := ""
      function_signature := (m.grp l 0).getD ""
      function_name := (m.grp l 2).getD ""
      parameters :=
        if paramsText ≠ "" then (splitDepth '<' '>' paramsText).filterMap cppParamOf else []
      return_type := (m.grp l 1).getD ""
      class_context := classCtx }

/-- The `class\s+(\w+)(?:\s+extends\s+\w+)?\s*\{` -/
def jsClassRe : RE :=
  RE.cat [RE.lit "class", reSP, RE.group 1 reWP,
    RE.opt (RE.cat [reSP, RE.lit "extends", reSP, reWP]), reSS, RE.lit "\x7b"]

/-- The `function\s+(\w+)\s*\((.*?)\)\s*\{` -/
def jsFunc1Re : RE :=
  RE.cat [RE.lit "function", reSP, RE.group 1 reWP, reSS, RE.lit "(",
    RE.group 2 (RE.star true RE.dot), RE.lit ")", reSS, RE.lit "\x7b"]

/-- The `(?:const|let|var)\s+(\w+)\s*=\s*(?:\((.*?)\)|(\w+))\s*=>\s*\{?` -/
def jsFunc2Re : RE :=
  RE.cat [RE.alts [RE.lit "const", RE.lit "let", RE.lit "var"], reSP, RE.group 1 reWP,
    reSS, RE.lit "=", reSS,
    RE.alt (RE.cat [RE.lit "(", RE.group 2 (RE.star true RE.dot), RE.lit ")"])
      (RE.group 3 reWP),
    reSS, RE.lit "=>", reSS, RE.opt (RE.lit "\x7b")]

/-- The `(\w+)\s*\((.*?)\)\s*\{` -/
def jsFunc3Re : RE :=
  RE.cat [RE.group 1 reWP, reSS, RE.lit "(", RE.group 2 (RE.star true RE.dot),
    RE.lit ")", reSS, RE.lit "\x7b"]

/-- One JavaScript parameter token (`name[= default]`, type always empty). -/
def jsParamOf (tok : String) : Option Param :=
  let p := pyStrip tok
  if p = "" then none
  else if strContains p "=" then
    let parts := pySplit p "="
    some ⟨pyStrip (parts.headD ""), "",
      some (pyStrip (String.join (parts.tail.intersperse "=")))⟩
  else some ⟨p, "", none⟩

/-- Embedding of `CodeParser._parse_javascript`.  The three signature styles are tried
in source order; the second component records `len(match.groups())`. -/
def _parse_javascript (t : String) : CodeSignatureRecord :=
  let l := t.toList
  let classCtx := match reSearch jsClassRe t with
    | some m => (m.grp l 0).getD ""
    | none => ""
  let fm : Option (MRes × Nat) :=
    match reSearch jsFunc1Re t with
    | some m => some (m, 2)
    | none =>
      match reSearch jsFunc2Re t with
      | some m => some (m, 3)
      | none =>
        match reSearch jsFunc3Re t with
        | some m => some (m, 2)
        | none => none
  match fm with
  | none => { language := "", function_signature := "", function_name := "",
              parameters := [], return_type := "", class_context := classCtx }
  | some (m, ng) =>
    let paramsText : Option String :=
      if pyTruthy (m.grp l 2) then m.grp l 2
      else if 2 < ng then m.grp l 3 else some ""
    { language := ""
      function_signature := (m.grp l 0).getD ""
      function_name := (m.grp l 1).getD ""
      parameters :=
        if pyTruthy paramsText then
          ((pySplit (paramsText.getD "") ",").filterMap jsParamOf)
        else []
      return_type := ""
      class_context := classCtx }

/-- The `(?:function|def|void|int|bool|string|char|float|double)\s+(\w+)\s*\((.*?)\)` -/
def genFuncRe : RE :=
  RE.cat [RE.alts [RE.lit "function", RE.lit "def", RE.lit "void", RE.lit "int",
      RE.lit "bool", RE.lit "string", RE.lit "char", RE.lit "float", RE.lit "double"],
    reSP, RE.group 1 reWP, reSS, RE.lit "(", RE.group 2 (RE.star true RE.dot), RE.lit ")"]

/-- One generic parameter token (the whole token becomes the name). -/
def genParamOf (tok : String) : Option Param :=
  let p := pyStrip tok
  if p = "" then none else some ⟨p, "", none⟩

/-- Embedding of `CodeParser._parse_generic`. -/
def _parse_generic (t : String) : CodeSignatureRecord :=
  let l := t.toList
  match reSearch genFuncRe t with
  | none => { language := "", function_signature := "", function_name := "",
              parameters := [], return_type := "", class_context := "" }
  | some m =>
    let paramsText := (m.grp l 2).getD ""
    { language := ""
      function_signature := (m.grp l 0).getD ""
      function_name := (m.grp l 1).getD ""
      parameters :=
        if paramsText ≠ "" then ((pySplit paramsText ",").filterMap genParamOf) else []
      return_type := ""
      class_context := "" }

/-- Embedding of `CodeParser.parse`. -/
def parse (code_text : String) : CodeSignatureRecord :=
  if code_text = "" then
    { language := "unknown", function_signature := "", function_name := "",
      parameters := [], return_type := "", class_context := "" }
  else
    let t := _clean_code_text code_text
    let language := _detect_language t
    let result :=
      if language = "python" then _parse_python t
      else if language = "java" then _parse_java t
      else if language = "cpp" then _parse_cpp t
      else if language = "javascript" then _parse_javascript t
      else _parse_generic t
    { result with language := language }

end CodeParser

/-! ## Problem Parser (desktop_app/parsing/problem_parser.py) -/

/-- One parsed example block: `{input, output, explanation}`. -/
structure ExampleRec where
  input : String
  output : String
  explanation : String
deriving DecidableEq, Repr

/-- The structured record produced by `ProblemParser.parse`. -/
structure ProblemRecord where
  title : String
  description : String
  examples : List ExampleRec
  constraints : List String
deriving DecidableEq, Repr

/-- Python `str.lower()` (ASCII). -/
def pyLower (s : String) : String := String.mk (s.toList.map Char.toLower)

namespace ProblemParser

/-- The `\n{3,}` -/
def reNl3 : RE := RE.cat [RE.lit "\n\n\n", RE.star false (RE.cls (· = '\n'))]

/-- The `Example\s*(\d)\s*:` -/
def reExampleNum : RE :=
  RE.cat [RE.lit "Example", reSS, RE.group 1 (RE.cls isDigitCh), reSS, RE.lit ":"]

/-- Embedding of `ProblemParser._clean_text`. -/
def _clean_text (t : String) : String :=
  let t := reSub reNl3 (fun _ _ => "\n\n") t
  let t := pyReplace t "Example|:" "Example:"
  let t := pyReplace t "Example |:" "Example:"
  let t := pyReplace t "Input|:" "Input:"
  let t := pyReplace t "Output|:" "Output:"
  let t := pyReplace t "Constraints|:" "Constraints:"
  let t := reSub reExampleNum (fun m s => "Example " ++ ((m.grp s 1).getD "") ++ ":") t
  pyStrip t

/-- The `^(?:\d+\.\s*)?([A-Z][A-Za-z0-9\s\-]+)(?:\n|$)` -/
def titleRe : RE :=
  RE.cat [RE.bol false, RE.opt (RE.cat [reDP, RE.lit ".", reSS]),
    RE.group 1 (RE.cat [RE.cls (fun c => c.isUpper),
      RE.plus (RE.cls (fun c => c.isAlpha || c.isDigit || isSpaceCh c || c = '-'))]),
    RE.alt (RE.cls (· = '\n')) RE.eol]

/-- The title fallback scan over lines (first short capitalized
non-header line). -/
def findTitleLine : List String → Option String
  | [] => none
  | line :: rest =>
    let line := pyStrip line
    if line ≠ "" ∧ line.length < 50 ∧ (line.toList.headD ' ').isUpper ∧
        ¬(strContains (pyLower line) "example" ∨ strContains (pyLower line) "input:" ∨
          strContains (pyLower line) "output:" ∨ strContains (pyLower line) "constraints:")
    then some line
    else findTitleLine rest

/-- Embedding of `ProblemParser._extract_title`. -/
def _extract_title (t : String) : String :=
  match reSearch titleRe t with
  | some m => pyStrip ((m.grp t.toList 1).getD "")
  | none =>
    let lines := pySplit t "\n"
    match findTitleLine lines with
    | some l => l
    | none => lines.headD ""

/-- The `Example\s*\d+:?(.*?)(?=Example\s*\d+:|Constraints:|$)` with `re.DOTALL`. -/
def exBlockRe : RE :=
  RE.cat [RE.lit "Example", reSS, reDP, RE.opt (RE.lit ":"),
    RE.group 1 (RE.star true RE.dotAll),
    RE.look (RE.alts [RE.cat [RE.lit "Example", reSS, reDP, RE.lit ":"],
      RE.lit "Constraints:", RE.eol])]

/-- The `Input:?\s*(.*?)(?=Output|$)` with `re.DOTALL`. -/
def inputRe : RE :=
  RE.cat [RE.lit "Input", RE.opt (RE.lit ":"), reSS,
    RE.group 1 (RE.star true RE.dotAll), RE.look (RE.alt (RE.lit "Output") RE.eol)]

/-- The `Output:?\s*(.*?)(?=Explanation|$)` with `re.DOTALL`. -/
def outputRe : RE :=
  RE.cat [RE.lit "Output", RE.opt (RE.lit ":"), reSS,
    RE.group 1 (RE.star true RE.dotAll), RE.look (RE.alt (RE.lit "Explanation") RE.eol)]

/-- The `Explanation:?\s*(.*?)$` with `re.DOTALL`. -/
def explanationRe : RE :=
  RE.cat [RE.lit "Explanation", RE.opt (RE.lit ":"), reSS,
    RE.group 1 (RE.star true RE.dotAll), RE.eol]

/-- Embedding of `ProblemParser._extract_examples`. -/
def _extract_examples (t : String) : List ExampleRec :=
  (reFindIter exBlockRe t).map (fun m =>
    let ex := pyStrip ((m.grp t.toList 1).getD "")
    let l := ex.toList
    { input := match reSearch inputRe ex with
        | some mi => pyStrip ((mi.grp l 1).getD "")
        | none => ""
      output := match reSearch outputRe ex with
        | some mo => pyStrip ((mo.grp l 1).getD "")
        | none => ""
      explanation := match reSearch explanationRe ex with
        | some me => pyStrip ((me.grp l 1).getD "")
        | none => "" })

/-- The `Constraints:?(.*?)$` with `re.DOTALL`. -/
def constraintsRe : RE :=
  RE.cat [RE.lit "Constraints", RE.opt (RE.lit ":"),
    RE.group 1 (RE.star true RE.dotAll), RE.eol]

/-- The `\n+|\•|\*` -/
def constraintSplitRe : RE :=
  RE.alts [RE.plus (RE.cls (· = '\n')), RE.cls (· = '•'), RE.cls (· = '*')]

/-- Embedding of `ProblemParser._extract_constraints`. -/
def _extract_constraints (t : String) : List String :=
  match reSearch constraintsRe t with
  | none => []
  | some m =>
    let ctext := pyStrip ((m.grp t.toList 1).getD "")
    ((reSplit constraintSplitRe ctext).map pyStrip).filter (· ≠ "")

/-- The `Example\s*\d+:?.*?(?=Example\s*\d+:|Constraints:|$)` with `re.DOTALL`
(example removal inside `_extract_description`). -/
def exRemoveRe : RE :=
  RE.cat [RE.lit "Example", reSS, reDP, RE.opt (RE.lit ":"),
    RE.star true RE.dotAll,
    RE.look (RE.alts [RE.cat [RE.lit "Example", reSS, reDP, RE.lit ":"],
      RE.lit "Constraints:", RE.eol])]

/-- The `Constraints:?.*?$` with `re.DOTALL` (constraints removal). -/
def conRemoveRe : RE :=
  RE.cat [RE.lit "Constraints", RE.opt (RE.lit ":"), RE.star true RE.dotAll, RE.eol]

/-- Embedding of `ProblemParser._extract_description` (`examples`/`constraints` are
accepted but, as in the source, not read). -/
def _extract_description (t title : String) (_examples : List ExampleRec)
    (_constraints : List String) : String :=
  let description := t
  let description :=
    if title ≠ "" then
      pyStrip (reSubCount
        (RE.cat [RE.bol false, RE.opt (RE.cat [reDP, RE.lit ".", reSS]), RE.lit title,
          RE.alt (RE.cls (· = '\n')) RE.eol])
        (fun _ _ => "") description (some 1))
    else description
  let description := pyStrip (reSub exRemoveRe (fun _ _ => "") description)
  pyStrip (reSub conRemoveRe (fun _ _ => "") description)

/-- Embedding of `ProblemParser.parse`. -/
def parse (text : String) : ProblemRecord :=
  if text = "" then
    { title := "", description := "", examples := [], constraints := [] }
  else
    let text := _clean_text text
    let title := _extract_title text
    let examples := _extract_examples text
    let constraints := _extract_constraints text
    let description := _extract_description text title examples constraints
    { title := title, description := description, examples := examples,
      constraints := constraints }

end ProblemParser

/-! ## Image Processor (desktop_app/preprocessing/image_processor.py)

The cv2/numpy primitives (thresholding, contour extraction, Canny, the
projection profile, perspective warping) are geometric computations on
pixel grids; they enter the embedding as explicit parameters: a contour
is characterised by what the code reads off it (`cv2.contourArea`,
`cv2.boundingRect`), and `_analyze_layout` receives the list of external
contours of the thresholded image plus its horizontal projection profile
`np.sum(thresh, axis=1)` as inputs.  Everything the Python code computes
from those values is embedded faithfully, including numpy's broadcasting
(`ValueError`) and out-of-range indexing (`IndexError`) being caught by
the `except` clause, which makes `_analyze_layout` return `{}`. -/

/-- The `RegionType` enum. -/
inductive RegionType where
  | PROBLEM
  | CODE
  | UNKNOWN
deriving DecidableEq, Repr

/-- An axis-aligned bounding rectangle `(x, y, w, h)` (`cv2.boundingRect`). -/
structure Rect where
  x : Nat
  y : Nat
  w : Nat
  h : Nat
deriving DecidableEq, Repr

/-- A contour as consumed by `_analyze_layout`: its `cv2.contourArea`
and its `cv2.boundingRect`. -/
structure Contour where
  area : ℚ
  rect : Rect
deriving DecidableEq

/-- An image: shape plus (unstructured) pixel payload. -/
structure Img where
  h : Nat
  w : Nat
  data : List Nat
deriving DecidableEq, Repr

/-- The `np.mean` of a rational list (empty list: the comparisons against a
NaN mean are all false in numpy; here the list is only consumed through
`<` against rows of the same empty list, so the value is irrelevant). -/
def qMean (l : List ℚ) : ℚ := l.sum / l.length

/-- Indices `i` with `gaps[i] = False` and `gaps[i+1] = True`
(`np.where(np.diff(gaps.astype(int)) == 1)[0]`). -/
def risingIdx (g : List Bool) : List Nat :=
  (List.range (g.length - 1)).filter (fun i => !g.getD i true && g.getD (i + 1) false)

/-- Indices `i` with `gaps[i] = True` and `gaps[i+1] = False`
(`np.where(np.diff(gaps.astype(int)) == -1)[0]`). -/
def fallingIdx (g : List Bool) : List Nat :=
  (List.range (g.length - 1)).filter (fun i => g.getD i false && !g.getD (i + 1) true)

/-- Elementwise numpy subtraction with broadcasting; `none` is the
`ValueError` numpy raises on incompatible shapes. -/
def npSub (a b : List Int) : Option (List Int) :=
  if a.length = b.length then some (List.zipWith (fun x y => x - y) a b)
  else if b.length = 1 then some (a.map (fun x => x - b.headD 0))
  else if a.length = 1 then some (b.map (fun y => a.headD 0 - y))
  else none

/-- Worker for `npArgmax`. -/
def argmaxGo : List Int → Int → Nat → Nat → Nat
  | [], _, bi, _ => bi
  | x :: xs, bv, bi, ci => if bv < x then argmaxGo xs x ci (ci + 1) else argmaxGo xs bv bi (ci + 1)

/-- The `np.argmax`: index of the first maximal element. -/
def npArgmax : List Int → Nat
  | [] => 0
  | x :: xs => argmaxGo xs x 0 1

namespace ImageProcessor

/-- Stable insertion into a list sorted by bounding-rectangle `y`. -/
def insertByY (c : Contour) : List Contour → List Contour
  | [] => [c]
  | d :: ds => if c.rect.y ≤ d.rect.y then c :: d :: ds else d :: insertByY c ds

/-- The `sorted(valid_contours, key=lambda c: cv2.boundingRect(c)[1])`
(stable sort by the bounding rectangle's top coordinate). -/
def sortByY : List Contour → List Contour
  | [] => []
  | c :: cs => insertByY c (sortByY cs)

/-- The area filter of method 1: contours whose area exceeds
`0.01 * h * w`. -/
def validContours (h w : Nat) (contours : List Contour) : List Contour :=
  contours.filter (fun c => decide ((1 / 100 : ℚ) * ((h : ℚ) * (w : ℚ)) < c.area))

/-- Placeholder contour for the (guarded) `sorted[0]` / `sorted[-1]`
accesses. -/
def dummyContour : Contour := ⟨0, ⟨0, 0, 0, 0⟩⟩

/-- Method 2 of `_analyze_layout` (the projection-profile split),
extracted as a helper: mark rows below half the mean as gaps, subtract
the rising from the falling edge indices (numpy broadcasting), pick the
longest gap and split at its midpoint.  `[]` stands both for falling
through and for the `except` clause catching a numpy
`ValueError`/`IndexError`. -/
def projectionSplit (h w : Nat) (hproj : List ℚ) : List (RegionType × Rect) :=
  let thr := qMean hproj * (1 / 2 : ℚ)
  let gaps := hproj.map (fun v => decide (v < thr))
  let gapStarts := risingIdx gaps
  let gapEnds := fallingIdx gaps
  if gapStarts ≠ [] ∧ gapEnds ≠ [] then
    match npSub (gapEnds.map Int.ofNat) (gapStarts.map Int.ofNat) with
    | none => []
    | some gapLengths =>
      if 0 < gapLengths.length then
        match gapStarts[npArgmax gapLengths]?, gapEnds[npArgmax gapLengths]? with
        | some s, some e =>
          let splitY := (s + e) / 2
          [(RegionType.PROBLEM, ⟨0, 0, w, splitY⟩),
           (RegionType.CODE, ⟨0, splitY, w, h - splitY⟩)]
        | _, _ => []
      else []
  else []

/-- Embedding of `ImageProcessor._analyze_layout`; `[]` is the `{}` returned when both
methods fail or an exception is caught. -/
def _analyze_layout (h w : Nat) (contours : List Contour) (hproj : List ℚ) :
    List (RegionType × Rect) :=
  if 2 ≤ (validContours h w contours).length then
    let sorted := sortByY (validContours h w contours)
    [(RegionType.PROBLEM, (sorted.headD dummyContour).rect),
     (RegionType.CODE, (sorted.getLastD dummyContour).rect)]
  else projectionSplit h w hproj

/-- Embedding of `ImageProcessor.detect_regions` (fallback: split in half horizontally). -/
def detect_regions (h w : Nat) (contours : List Contour) (hproj : List ℚ) :
    List (RegionType × Rect) :=
  let regions := _analyze_layout h w contours hproj
  if regions = [] then
    [(RegionType.PROBLEM, ⟨0, 0, w, h / 2⟩),
     (RegionType.CODE, ⟨0, h / 2, w, h - h / 2⟩)]
  else regions

end ImageProcessor

/-! ### Perspective correction -/

/-- A 2-D point (float coordinates in the source; embedded as ℚ). -/
structure Pt where
  x : ℚ
  y : ℚ
deriving DecidableEq, Repr

/-- Placeholder point for guarded indexing. -/
def dummyPt : Pt := ⟨0, 0⟩

/-- Worker for `pyArgminQ`. -/
def argminQGo : List ℚ → ℚ → Nat → Nat → Nat
  | [], _, bi, _ => bi
  | x :: xs, bv, bi, ci => if x < bv then argminQGo xs x ci (ci + 1) else argminQGo xs bv bi (ci + 1)

/-- The `np.argmin` over rationals: first minimal index. -/
def pyArgminQ : List ℚ → Nat
  | [] => 0
  | x :: xs => argminQGo xs x 0 1

/-- Worker for `pyArgmaxQ`. -/
def argmaxQGo : List ℚ → ℚ → Nat → Nat → Nat
  | [], _, bi, _ => bi
  | x :: xs, bv, bi, ci => if bv < x then argmaxQGo xs x ci (ci + 1) else argmaxQGo xs bv bi (ci + 1)

/-- The `np.argmax` over rationals: first maximal index. -/
def pyArgmaxQ : List ℚ → Nat
  | [] => 0
  | x :: xs => argmaxQGo xs x 0 1

/-- Python `max(xs, key=f)`: first element with maximal key. -/
def pyMaxBy {α : Type} (f : α → ℚ) (x : α) (xs : List α) : α :=
  xs.foldl (fun b a => if f b < f a then a else b) x

/-- Embedding of `ImageProcessor._order_points`: `[top-left, top-right, bottom-right,
bottom-left]` via argmin/argmax of `x+y` and `y−x` (`np.diff` of an
`[x, y]` row is `y − x`). -/
def order_points (pts : List Pt) : List Pt :=
  let s := pts.map (fun p => p.x + p.y)
  let d := pts.map (fun p => p.y - p.x)
  [pts.getD (pyArgminQ s) dummyPt,
   pts.getD (pyArgminQ d) dummyPt,
   pts.getD (pyArgmaxQ s) dummyPt,
   pts.getD (pyArgmaxQ d) dummyPt]

/-- The cv2 primitives consumed by `correct_perspective`, as explicit
parameters of the embedding (`warp` combines `getPerspectiveTransform`
and `warpPerspective`; `sqrtQ` stands for `np.sqrt`). -/
structure CvOps where
  toGray : Img → Img
  gaussianBlur : Img → Img
  canny : Img → Img
  findContours : Img → List (List Pt)
  contourArea : List Pt → ℚ
  arcLength : List Pt → ℚ
  approxPolyDP : List Pt → ℚ → List Pt
  sqrtQ : ℚ → ℚ
  warp : Img → List Pt → Nat → Nat → Img

/-- Squared euclidean distance between two of the ordered points. -/
def sqDist (a b : Pt) : ℚ := (a.x - b.x) ^ 2 + (a.y - b.y) ^ 2

/-- Embedding of `ImageProcessor.correct_perspective`.  Rational division stands in
for Python float division in the (4-vertex branch only) aspect-ratio
check; `int()` truncation of the non-negative square roots is `floor`. -/
def correct_perspective (cv : CvOps) (image : Img) : Img :=
  let gray := cv.toGray image
  let blurred := cv.gaussianBlur gray
  let edges := cv.canny blurred
  let contours := cv.findContours edges
  match contours with
  | [] => image
  | c :: cs =>
    let maxContour := pyMaxBy cv.contourArea c cs
    let epsilon := (2 / 100 : ℚ) * cv.arcLength maxContour
    let approx := cv.approxPolyDP maxContour epsilon
    if approx.length = 4 then
      let rect := order_points approx
      let r0 := rect.getD 0 dummyPt
      let r1 := rect.getD 1 dummyPt
      let r2 := rect.getD 2 dummyPt
      let r3 := rect.getD 3 dummyPt
      let width_a := cv.sqrtQ (sqDist r0 r1)
      let width_b := cv.sqrtQ (sqDist r2 r3)
      let max_width := max width_a.floor.toNat width_b.floor.toNat
      let height_a := cv.sqrtQ (sqDist r0 r3)
      let height_b := cv.sqrtQ (sqDist r1 r2)
      let max_height := max height_a.floor.toNat height_b.floor.toNat
      let warped := cv.warp image rect max_width max_height
      let orig_aspect := (image.w : ℚ) / (image.h : ℚ)
      let warped_aspect := (max_width : ℚ) / (max_height : ℚ)
      if (7 / 10 : ℚ) < warped_aspect / orig_aspect ∧
          warped_aspect / orig_aspect < (13 / 10 : ℚ) then warped
      else image
    else image

/-! ## OCR Engine (desktop_app/ocr/ocr_engine.py) -/

/-- The `TextType` enum. -/
inductive TextType where
  | PROBLEM
  | CODE
  | GENERAL
deriving DecidableEq, Repr

namespace OCREngine

/-- The per-text-type Tesseract configurations built in `__init__`. -/
def defaultConfigs : TextType → String
  | .PROBLEM => "--psm 6 --oem 3"
  | .CODE => "--psm 6 --oem 3 -c preserve_interword_spaces=1"
  | .GENERAL => "--psm 3 --oem 3"

/-- The `self.code_char_whitelist` from `__init__`. -/
def defaultWhitelist : String :=
  "ABCDEFGHIJKLMNOPQRSTUVWXYZabcdefghijklmnopqrstuvwxyz0123456789+-*/=<>:;,.()[]\x7b\x7d!?\x27\"\\|&^%$#@~\x60"

/-- The engine state set up by `__init__` that `extract_text` reads. -/
structure Cfg where
  lang : String
  configs : TextType → String
  code_char_whitelist : String

/-- The external collaborators of `extract_text`: the cv2-based
`preprocess_image` and `pytesseract.image_to_string` (whose raised
exceptions are the `Except.error` case). -/
structure Ops where
  preprocessImage : Img → TextType → Img
  imageToString : Img → String → String → Except String String

/-- The configuration string passed to the OCR call (code adds the
character whitelist). -/
def configFor (st : Cfg) (text_type : TextType) : String :=
  let config := st.configs text_type
  if text_type = TextType.CODE then
    config ++ " -c tessedit_char_whitelist=\x27" ++ st.code_char_whitelist ++ "\x27"
  else config

/-- Embedding of `OCREngine.extract_text`: the `try/except` around the OCR call
returns `""` when the engine throws. -/
def extract_text (ops : Ops) (st : Cfg) (image : Img) (text_type : TextType)
    (lang : Option String) : String :=
  let lang := lang.getD st.lang
  let preprocessed := ops.preprocessImage image text_type
  let config := configFor st text_type
  match ops.imageToString preprocessed lang config with
  | .ok text => text
  | .error _ => ""

end OCREngine

/-! ## Auxiliary definitions used by the claim statements -/

namespace CodeParser

/-- A parameter token is splittable in one piece: scanning it from depth
`d` never meets a comma at depth zero and ends back at depth zero
(commas only inside balanced bracket delimiters). -/
def tokOk (o c : Char) : List Char → Int → Bool
  | [], d => decide (d = 0)
  | ch :: rest, d =>
    if ch = ',' ∧ d = 0 then false else tokOk o c rest (bumpDepth o c ch d)

/-- The source-level parameter list obtained by writing the given
parameters separated by `", "`. -/
def joinParams : List String → String
  | [] => ""
  | [t] => t
  | t :: ts => t ++ ", " ++ joinParams ts

end CodeParser

/-- Whether a bounding box lies inside an `h × w` image. -/
def rectInBounds (h w : Nat) (r : Rect) : Prop := r.x + r.w ≤ w ∧ r.y + r.h ≤ h

/-- A cv2 oracle whose edge image has no contours at all (used to
exercise the identity path of `correct_perspective`). -/
def cvStub : CvOps where
  toGray := id
  gaussianBlur := id
  canny := id
  findContours := fun _ => []
  contourArea := fun _ => 0
  arcLength := fun _ => 0
  approxPolyDP := fun _ _ => []
  sqrtQ := fun _ => 0
  warp := fun i _ _ _ => i

/-- An OCR collaborator whose engine call always throws. -/
def ocrFailOps : OCREngine.Ops where
  preprocessImage := fun i _ => i
  imageToString := fun _ _ _ => Except.error "tesseract is not installed"

/-- The engine state built by `OCREngine.__init__` with default arguments. -/
def ocrDefaultCfg : OCREngine.Cfg where
  lang := "eng"
  configs := OCREngine.defaultConfigs
  code_char_whitelist := OCREngine.defaultWhitelist

/-! ## Claim theorems -/

set_option maxRecDepth 2000000

/-- Claim C3. For the empty string input, `ProblemParser.parse` returns
`{title:'', description:'', examples:[], constraints:[]}` and
`CodeParser.parse` returns `{language:'unknown', function_signature:'',
function_name:'', parameters:[], return_type:'', class_context:''}`.
(Both embeddings are total functions, so no exception can propagate.) -/
theorem claim_C3_empty_inputs :
    ProblemParser.parse "" =
      { title := "", description := "", examples := [], constraints := [] } ∧
    CodeParser.parse "" =
      { language := "unknown", function_signature := "", function_name := "",
        parameters := [], return_type := "", class_context := "" } := by
  constructor <;> rfl

/-- Claim C4. On Scenario A's Python input, `CodeParser.parse` returns
language `python`, function name `twoSum`, return type `List[int]`, and
the parameters `self` (untyped), `nums : List[int]`, `target : int`, in
that order, all with no default. -/
theorem claim_C4_scenario_a_python :
    (CodeParser.parse "class Solution:\n    def twoSum(self, nums: List[int], target: int) -> List[int]:\n        pass").language = "python" ∧
    (CodeParser.parse "class Solution:\n    def twoSum(self, nums: List[int], target: int) -> List[int]:\n        pass").function_name = "twoSum" ∧
    (CodeParser.parse "class Solution:\n    def twoSum(self, nums: List[int], target: int) -> List[int]:\n        pass").return_type = "List[int]" ∧
    (CodeParser.parse "class Solution:\n    def twoSum(self, nums: List[int], target: int) -> List[int]:\n        pass").parameters =
      [⟨"self", "", none⟩, ⟨"nums", "List[int]", none⟩, ⟨"target", "int", none⟩] := by
  refine ⟨?_, ?_, ?_, ?_⟩ <;> decide

/-- Claim C1. (Evaluation of the code at the claim's input.)  On Scenario
B's Java input `public int[] twoSum(int[] nums, int target) {`, the code
does *not* return the record the claim describes: `\w+` matches neither
the `int[]` return type (in `_detect_language`'s Java method pattern)
nor any other pattern, so the parser returns language `unknown` with
every other field empty — contradicting the spec and the repository's
own fixture in `tests/test_ai.py` (which pairs this exact input with
`language='java'`, `function_name='twoSum'`). -/
theorem claim_C1_scenario_b_evaluation :
    CodeParser.parse "public int[] twoSum(int[] nums, int target) \x7b" =
      { language := "unknown", function_signature := "", function_name := "",
        parameters := [], return_type := "", class_context := "" } := by
  decide

/-- Claim C7. If contour detection finds no contours, or the polygon
approximation of the largest contour does not have exactly four
vertices, `correct_perspective` returns its input unchanged.  (The
embedding is total, so neither path can raise.) -/
theorem claim_C7_perspective_identity (cv : CvOps) (image : Img) :
    (cv.findContours (cv.canny (cv.gaussianBlur (cv.toGray image))) = [] →
      correct_perspective cv image = image) ∧
    (∀ c cs, cv.findContours (cv.canny (cv.gaussianBlur (cv.toGray image))) = c :: cs →
      (cv.approxPolyDP (pyMaxBy cv.contourArea c cs)
        ((2 / 100 : ℚ) * cv.arcLength (pyMaxBy cv.contourArea c cs))).length ≠ 4 →
      correct_perspective cv image = image) := by
  constructor
  · intro h
    unfold correct_perspective
    simp only [h]
  · intro c cs h hlen
    unfold correct_perspective
    simp only [h]
    rw [if_neg hlen]

/-- Witness for C7 at a concrete oracle (no contours) and image. -/
theorem claim_C7_perspective_identity_witness :
    correct_perspective cvStub ⟨2, 3, [7, 7, 7]⟩ = ⟨2, 3, [7, 7, 7]⟩ :=
  (claim_C7_perspective_identity cvStub ⟨2, 3, [7, 7, 7]⟩).1 rfl

/-- Claim C9. If the OCR engine call throws, `OCREngine.extract_text`
returns the empty string instead of propagating the exception. -/
theorem claim_C9_ocr_error_to_empty (ops : OCREngine.Ops) (st : OCREngine.Cfg)
    (image : Img) (text_type : TextType) (lang : Option String) (e : String)
    (h : ops.imageToString (ops.preprocessImage image text_type) (lang.getD st.lang)
      (OCREngine.configFor st text_type) = Except.error e) :
    OCREngine.extract_text ops st image text_type lang = "" := by
  unfold OCREngine.extract_text
  simp only [h]

/-- Witness for C9: a concrete engine that always throws. -/
theorem claim_C9_ocr_error_to_empty_witness :
    OCREngine.extract_text ocrFailOps ocrDefaultCfg ⟨1, 1, [0]⟩ TextType.CODE none = "" :=
  claim_C9_ocr_error_to_empty ocrFailOps ocrDefaultCfg ⟨1, 1, [0]⟩ TextType.CODE none
    "tesseract is not installed" rfl

/-- Claim C2 counterexample.  Re-parsing an extracted `function_signature`
is *not* idempotent in general.  On `let a=1\nfoo(b) {` the parser
detects JavaScript (via `let ... =`) and the class-method pattern
extracts signature `foo(b) {` with name `foo` and parameter `b`; but the
isolated signature `foo(b) {` matches no language pattern (no `let`, no
closing brace), falls through to `unknown`, and the generic parser finds
nothing: name and parameters are lost. -/
theorem claim_C2_counterexample :
    (CodeParser.parse "let a=1\nfoo(b) \x7b").function_signature = "foo(b) \x7b" ∧
    (CodeParser.parse "let a=1\nfoo(b) \x7b").function_name = "foo" ∧
    (CodeParser.parse "let a=1\nfoo(b) \x7b").parameters = [⟨"b", "", none⟩] ∧
    CodeParser.parse ((CodeParser.parse "let a=1\nfoo(b) \x7b").function_signature) =
      { language := "unknown", function_signature := "", function_name := "",
        parameters := [], return_type := "", class_context := "" } := by
  refine ⟨?_, ?_, ?_, ?_⟩ <;> decide

/-- Claim C2 amended.  Idempotence of re-parsing the extracted signature
holds on the spec's representative Scenario A input (even though the
isolated signature is re-detected as Python only through the
`':' and 'def'` fallback), but not for every code text (see the
counterexample). -/
theorem claim_C2_amended_scenario_a_idempotent :
    (CodeParser.parse "class Solution:\n    def twoSum(self, nums: List[int], target: int) -> List[int]:\n        pass").function_signature ≠ "" ∧
    (CodeParser.parse ((CodeParser.parse "class Solution:\n    def twoSum(self, nums: List[int], target: int) -> List[int]:\n        pass").function_signature)).function_name =
      (CodeParser.parse "class Solution:\n    def twoSum(self, nums: List[int], target: int) -> List[int]:\n        pass").function_name ∧
    (CodeParser.parse ((CodeParser.parse "class Solution:\n    def twoSum(self, nums: List[int], target: int) -> List[int]:\n        pass").function_signature)).parameters =
      (CodeParser.parse "class Solution:\n    def twoSum(self, nums: List[int], target: int) -> List[int]:\n        pass").parameters ∧
    (CodeParser.parse ((CodeParser.parse "class Solution:\n    def twoSum(self, nums: List[int], target: int) -> List[int]:\n        pass").function_signature)).return_type =
      (CodeParser.parse "class Solution:\n    def twoSum(self, nums: List[int], target: int) -> List[int]:\n        pass").return_type := by
  refine ⟨?_, ?_, ?_, ?_⟩ <;> decide

/-- One-step unfolding: sequencing. -/
theorem mrun_succ_seq (f : Nat) (a b : RE) (rem : List Char) (pos : Nat)
    (lst : Option Char) (caps : Caps)
    (k : List Char → Nat → Option Char → Caps → Option (Nat × Caps)) :
    mrun (f + 1) (RE.seq a b) rem pos lst caps k =
      mrun f a rem pos lst caps (fun r' p' l' c' => mrun f b r' p' l' c' k) := rfl

/-- One-step unfolding: group. -/
theorem mrun_succ_group (f : Nat) (i : Nat) (r : RE) (rem : List Char) (pos : Nat)
    (lst : Option Char) (caps : Caps)
    (k : List Char → Nat → Option Char → Caps → Option (Nat × Caps)) :
    mrun (f + 1) (RE.group i r) rem pos lst caps k =
      mrun f r rem pos lst caps (fun r' p' l' c' => k r' p' l' (c'.set i pos p')) := rfl

/-- One-step unfolding: character class on a non-empty remainder. -/
theorem mrun_succ_cls_cons (f : Nat) (p : Char → Bool) (c : Char) (cs : List Char)
    (pos : Nat) (lst : Option Char) (caps : Caps)
    (k : List Char → Nat → Option Char → Caps → Option (Nat × Caps)) :
    mrun (f + 1) (RE.cls p) (c :: cs) pos lst caps k =
      if p c then k cs (pos + 1) (some c) caps else none := rfl

/-- The Python parameter regex `(\w+)...` cannot match a token whose
first character is not a word character: `\w+` fails immediately. -/
theorem mrun_pyParam_none (f : Nat) (c : Char) (cs : List Char) (pos : Nat)
    (lst : Option Char) (caps : Caps)
    (k : List Char → Nat → Option Char → Caps → Option (Nat × Caps))
    (hc : isWordCh c = false) :
    mrun (f + 4) CodeParser.pyParamRe (c :: cs) pos lst caps k = none := by
  have e : CodeParser.pyParamRe =
      RE.seq (RE.group 1 (RE.seq (RE.cls isWordCh) (RE.star false (RE.cls isWordCh))))
        (RE.seq
          (RE.opt (RE.cat [reSS, RE.lit ":", reSS,
            RE.group 2 (RE.star false (RE.cls (· ≠ '=')))]))
          (RE.seq
            (RE.opt (RE.cat [reSS, RE.lit "=", reSS, RE.group 3 (RE.star false RE.dot)]))
            RE.eps)) := rfl
  rw [e]
  rw [show f + 4 = (f + 3) + 1 from rfl, mrun_succ_seq]
  rw [show f + 3 = (f + 2) + 1 from rfl, mrun_succ_group]
  rw [show f + 2 = (f + 1) + 1 from rfl, mrun_succ_seq]
  rw [mrun_succ_cls_cons]
  simp [hc]

/-- Claim C10. A depth-zero Python parameter token that does not begin
with a word character (such as `*args`) is silently dropped, so the
output can have strictly fewer parameters than the source signature:
on `def f(a, *args):` the splitter produces two tokens but only one
parameter survives. -/
theorem claim_C10_nonword_tokens_dropped :
    (∀ (c : Char) (cs : List Char), isWordCh c = false →
      CodeParser.pyParamOf (String.mk (c :: cs)) = none) ∧
    (CodeParser.parse "def f(a, *args):").parameters = [⟨"a", "", none⟩] ∧
    (CodeParser.splitDepth '[' ']' "a, *args").length = 2 := by
  refine ⟨?_, by decide, by decide⟩
  intro c cs hc
  have key : reMatch CodeParser.pyParamRe (String.mk (c :: cs)) = none := by
    show matchAt CodeParser.pyParamRe (c :: cs) (c :: cs) 0 none = none
    unfold matchAt
    rw [show matchFuel CodeParser.pyParamRe (c :: cs) =
      ((CodeParser.pyParamRe.size + 2) * ((c :: cs).length + 2) + 12) + 4 from rfl]
    rw [mrun_pyParam_none _ c cs 0 none Caps.empty _ hc]
  unfold CodeParser.pyParamOf
  rw [key]

/-- Witness for C10's universal part at the token `*args`. -/
theorem claim_C10_nonword_tokens_dropped_witness :
    isWordCh '*' = false ∧ CodeParser.pyParamOf (String.mk ('*' :: "args".toList)) = none :=
  ⟨by decide, claim_C10_nonword_tokens_dropped.1 '*' "args".toList (by decide)⟩

/-- Membership in an insertion. -/
theorem mem_insertByY {x c : Contour} {l : List Contour} :
    x ∈ ImageProcessor.insertByY c l ↔ x = c ∨ x ∈ l := by
  induction l with
  | nil => simp [ImageProcessor.insertByY]
  | cons d ds ih =>
    by_cases h : c.rect.y ≤ d.rect.y
    · simp [ImageProcessor.insertByY, h]
    · simp [ImageProcessor.insertByY, h, ih]
      tauto

/-- Insertion preserves the length. -/
theorem length_insertByY (c : Contour) (l : List Contour) :
    (ImageProcessor.insertByY c l).length = l.length + 1 := by
  induction l with
  | nil => rfl
  | cons d ds ih =>
    by_cases h : c.rect.y ≤ d.rect.y
    · simp [ImageProcessor.insertByY, h]
    · simp [ImageProcessor.insertByY, h, ih]

/-- Insertion preserves sortedness by `y`. -/
theorem pairwise_insertByY {c : Contour} {l : List Contour}
    (h : l.Pairwise (fun a b => a.rect.y ≤ b.rect.y)) :
    (ImageProcessor.insertByY c l).Pairwise (fun a b => a.rect.y ≤ b.rect.y) := by
  induction l with
  | nil => simp [ImageProcessor.insertByY]
  | cons d ds ih =>
    rcases List.pairwise_cons.mp h with ⟨hd, hds⟩
    by_cases hc : c.rect.y ≤ d.rect.y
    · simp only [ImageProcessor.insertByY, if_pos hc]
      refine List.pairwise_cons.mpr ⟨?_, h⟩
      intro x hx
      rcases List.mem_cons.mp hx with h1 | hx'
      · exact h1 ▸ hc
      · exact le_trans hc (hd x hx')
    · simp only [ImageProcessor.insertByY, if_neg hc]
      refine List.pairwise_cons.mpr ⟨?_, ih hds⟩
      intro x hx
      rcases mem_insertByY.mp hx with rfl | hx'
      · exact le_of_not_le hc
      · exact hd x hx'

/-- The `sortByY` sorts by the rectangle's top coordinate. -/
theorem pairwise_sortByY (l : List Contour) :
    (ImageProcessor.sortByY l).Pairwise (fun a b => a.rect.y ≤ b.rect.y) := by
  induction l with
  | nil => simp [ImageProcessor.sortByY]
  | cons c cs ih => exact pairwise_insertByY ih

/-- The `sortByY` preserves membership. -/
theorem mem_sortByY {x : Contour} {l : List Contour} :
    x ∈ ImageProcessor.sortByY l ↔ x ∈ l := by
  induction l with
  | nil => simp [ImageProcessor.sortByY]
  | cons c cs ih => simp [ImageProcessor.sortByY, mem_insertByY, ih]

/-- The `sortByY` preserves the length. -/
theorem length_sortByY (l : List Contour) :
    (ImageProcessor.sortByY l).length = l.length := by
  induction l with
  | nil => rfl
  | cons c cs ih => simp [ImageProcessor.sortByY, length_insertByY, ih]

/-- On a non-empty list `getLastD` is a member. -/
theorem getLastD_mem {α : Type} {l : List α} (h : l ≠ []) (d : α) : l.getLastD d ∈ l := by
  induction l generalizing d with
  | nil => exact absurd rfl h
  | cons a as ih =>
    rw [List.getLastD_cons]
    cases as with
    | nil => simp [List.getLastD]
    | cons b bs => exact List.mem_cons_of_mem a (ih (by simp) a)

/-- In a `y`-sorted non-empty list the head is a lower bound. -/
theorem sorted_head_le {a x : Contour} {l : List Contour}
    (hp : (a :: l).Pairwise (fun a b => a.rect.y ≤ b.rect.y)) (hx : x ∈ a :: l) :
    a.rect.y ≤ x.rect.y := by
  rcases List.mem_cons.mp hx with h1 | hx'
  · exact h1 ▸ le_refl _
  · exact (List.pairwise_cons.mp hp).1 x hx'

/-- In a `y`-sorted list the last element is an upper bound. -/
theorem sorted_le_getLastD (l : List Contour) :
    ∀ (x d : Contour), l.Pairwise (fun a b => a.rect.y ≤ b.rect.y) → x ∈ l →
      x.rect.y ≤ (l.getLastD d).rect.y := by
  induction l with
  | nil => intro x d _ hx; cases hx
  | cons a as ih =>
    intro x d hp hx
    rw [List.getLastD_cons]
    rcases List.mem_cons.mp hx with h1 | hx'
    · subst h1
      cases as with
      | nil => simp [List.getLastD]
      | cons b bs => exact (List.pairwise_cons.mp hp).1 _ (getLastD_mem (by simp) _)
    · exact ih x a (List.pairwise_cons.mp hp).2 hx'

/-- When the contour method applies, `_analyze_layout` returns the
rectangles of a topmost and a bottommost valid contour. -/
theorem analyze_contour_branch (h w : Nat) (contours : List Contour) (hproj : List ℚ)
    (h2 : 2 ≤ (ImageProcessor.validContours h w contours).length) :
    ∃ cp cc : Contour,
      cp ∈ ImageProcessor.validContours h w contours ∧
      cc ∈ ImageProcessor.validContours h w contours ∧
      ImageProcessor._analyze_layout h w contours hproj =
        [(RegionType.PROBLEM, cp.rect), (RegionType.CODE, cc.rect)] ∧
      ∀ d ∈ ImageProcessor.validContours h w contours,
        cp.rect.y ≤ d.rect.y ∧ d.rect.y ≤ cc.rect.y := by
  have hlen := length_sortByY (ImageProcessor.validContours h w contours)
  rcases hs : ImageProcessor.sortByY (ImageProcessor.validContours h w contours) with
    _ | ⟨a, rest⟩
  · rw [hs] at hlen
    simp at hlen
    omega
  · refine ⟨a, (a :: rest).getLastD ImageProcessor.dummyContour, ?_, ?_, ?_, ?_⟩
    · have : a ∈ ImageProcessor.sortByY (ImageProcessor.validContours h w contours) := by
        rw [hs]; exact List.mem_cons_self a rest
      exact mem_sortByY.mp this
    · have hmem : (a :: rest).getLastD ImageProcessor.dummyContour ∈ a :: rest :=
        getLastD_mem (by simp) _
      have : (a :: rest).getLastD ImageProcessor.dummyContour ∈
          ImageProcessor.sortByY (ImageProcessor.validContours h w contours) := by
        rw [hs]; exact hmem
      exact mem_sortByY.mp this
    · unfold ImageProcessor._analyze_layout
      rw [if_pos h2]
      simp only [hs, List.headD_cons]
    · intro d hd
      have hd' : d ∈ a :: rest := by rw [← hs]; exact mem_sortByY.mpr hd
      have hp : (a :: rest).Pairwise (fun a b => a.rect.y ≤ b.rect.y) := by
        rw [← hs]; exact pairwise_sortByY _
      exact ⟨sorted_head_le hp hd', sorted_le_getLastD _ d ImageProcessor.dummyContour hp hd'⟩

/-- Claim C6. Whenever the contour method applies (at least two contours
each exceeding 1% of the image area), `_analyze_layout` assigns the
bounding rectangle with minimal top coordinate to Problem and the one
with maximal top coordinate to Code. -/
theorem claim_C6_topmost_problem_bottommost_code
    (h w : Nat) (contours : List Contour) (hproj : List ℚ)
    (h2 : 2 ≤ (ImageProcessor.validContours h w contours).length) :
    ∃ cp cc : Contour,
      cp ∈ ImageProcessor.validContours h w contours ∧
      cc ∈ ImageProcessor.validContours h w contours ∧
      ImageProcessor._analyze_layout h w contours hproj =
        [(RegionType.PROBLEM, cp.rect), (RegionType.CODE, cc.rect)] ∧
      ∀ d ∈ ImageProcessor.validContours h w contours,
        cp.rect.y ≤ d.rect.y ∧ d.rect.y ≤ cc.rect.y :=
  analyze_contour_branch h w contours hproj h2

/-- Witness for C6 on two concrete contours exceeding 1% of a 10×10
image. -/
theorem claim_C6_topmost_problem_bottommost_code_witness :
    2 ≤ (ImageProcessor.validContours 10 10
      [⟨2, ⟨0, 5, 2, 2⟩⟩, ⟨2, ⟨0, 1, 2, 2⟩⟩]).length ∧
    ∃ cp cc : Contour,
      cp ∈ ImageProcessor.validContours 10 10 [⟨2, ⟨0, 5, 2, 2⟩⟩, ⟨2, ⟨0, 1, 2, 2⟩⟩] ∧
      cc ∈ ImageProcessor.validContours 10 10 [⟨2, ⟨0, 5, 2, 2⟩⟩, ⟨2, ⟨0, 1, 2, 2⟩⟩] ∧
      ImageProcessor._analyze_layout 10 10 [⟨2, ⟨0, 5, 2, 2⟩⟩, ⟨2, ⟨0, 1, 2, 2⟩⟩] [] =
        [(RegionType.PROBLEM, cp.rect), (RegionType.CODE, cc.rect)] ∧
      ∀ d ∈ ImageProcessor.validContours 10 10 [⟨2, ⟨0, 5, 2, 2⟩⟩, ⟨2, ⟨0, 1, 2, 2⟩⟩],
        cp.rect.y ≤ d.rect.y ∧ d.rect.y ≤ cc.rect.y := by
  have hv : ImageProcessor.validContours 10 10 [⟨2, ⟨0, 5, 2, 2⟩⟩, ⟨2, ⟨0, 1, 2, 2⟩⟩] =
      [⟨2, ⟨0, 5, 2, 2⟩⟩, ⟨2, ⟨0, 1, 2, 2⟩⟩] := by
    unfold ImageProcessor.validContours
    norm_num [List.filter]
  have hlen : 2 ≤ (ImageProcessor.validContours 10 10
      [⟨2, ⟨0, 5, 2, 2⟩⟩, ⟨2, ⟨0, 1, 2, 2⟩⟩]).length := by
    rw [hv]; simp
  exact ⟨hlen,
    claim_C6_topmost_problem_bottommost_code 10 10
      [⟨2, ⟨0, 5, 2, 2⟩⟩, ⟨2, ⟨0, 1, 2, 2⟩⟩] [] hlen⟩

/-- Rising-edge indices are below `length - 1`. -/
theorem mem_risingIdx {g : List Bool} {i : Nat} (h : i ∈ risingIdx g) :
    i < g.length - 1 := by
  unfold risingIdx at h
  exact List.mem_range.mp (List.mem_filter.mp h).1

/-- Falling-edge indices are below `length - 1`. -/
theorem mem_fallingIdx {g : List Bool} {i : Nat} (h : i ∈ fallingIdx g) :
    i < g.length - 1 := by
  unfold fallingIdx at h
  exact List.mem_range.mp (List.mem_filter.mp h).1

/-- The `getElem?` hits are members. -/
theorem mem_of_getElem?' {α : Type} {l : List α} {n : Nat} {a : α}
    (h : l[n]? = some a) : a ∈ l := by
  obtain ⟨hlt, rfl⟩ := List.getElem?_eq_some.mp h
  exact List.getElem_mem hlt

/-- Exhaustive description of `projectionSplit`: either it fails (`[]`)
or it splits at a midpoint of two edge indices of the gap profile. -/
theorem projectionSplit_cases (h w : Nat) (hproj : List ℚ) :
    ImageProcessor.projectionSplit h w hproj = [] ∨
    ∃ s e : Nat, s + 1 < hproj.length ∧ e + 1 < hproj.length ∧
      ImageProcessor.projectionSplit h w hproj =
        [(RegionType.PROBLEM, ⟨0, 0, w, (s + e) / 2⟩),
         (RegionType.CODE, ⟨0, (s + e) / 2, w, h - (s + e) / 2⟩)] := by
  unfold ImageProcessor.projectionSplit
  dsimp only
  set gaps := hproj.map (fun v => decide (v < qMean hproj * (1 / 2 : ℚ))) with hg
  by_cases hc : risingIdx gaps ≠ [] ∧ fallingIdx gaps ≠ []
  · rw [if_pos hc]
    rcases hsub : npSub ((fallingIdx gaps).map Int.ofNat) ((risingIdx gaps).map Int.ofNat)
      with _ | lens
    · exact Or.inl rfl
    · dsimp only
      by_cases h0 : 0 < lens.length
      · rw [if_pos h0]
        rcases hs' : (risingIdx gaps)[npArgmax lens]? with _ | s
        · exact Or.inl rfl
        · rcases he' : (fallingIdx gaps)[npArgmax lens]? with _ | e
          · exact Or.inl rfl
          · refine Or.inr ⟨s, e, ?_, ?_, rfl⟩
            · have := mem_risingIdx (mem_of_getElem?' hs')
              rw [hg] at this
              simp only [List.length_map] at this
              omega
            · have := mem_fallingIdx (mem_of_getElem?' he')
              rw [hg] at this
              simp only [List.length_map] at this
              omega
      · rw [if_neg h0]
        exact Or.inl rfl
  · rw [if_neg hc]
    exact Or.inl rfl

/-- Exhaustive description of `_analyze_layout`. -/
theorem analyze_cases (h w : Nat) (contours : List Contour) (hproj : List ℚ) :
    (∃ cp cc : Contour,
      cp ∈ ImageProcessor.validContours h w contours ∧
      cc ∈ ImageProcessor.validContours h w contours ∧
      ImageProcessor._analyze_layout h w contours hproj =
        [(RegionType.PROBLEM, cp.rect), (RegionType.CODE, cc.rect)]) ∨
    (∃ s e : Nat, s + 1 < hproj.length ∧ e + 1 < hproj.length ∧
      ImageProcessor._analyze_layout h w contours hproj =
        [(RegionType.PROBLEM, ⟨0, 0, w, (s + e) / 2⟩),
         (RegionType.CODE, ⟨0, (s + e) / 2, w, h - (s + e) / 2⟩)]) ∨
    ImageProcessor._analyze_layout h w contours hproj = [] := by
  by_cases h2 : 2 ≤ (ImageProcessor.validContours h w contours).length
  · obtain ⟨cp, cc, hm1, hm2, h3, _⟩ := analyze_contour_branch h w contours hproj h2
    exact Or.inl ⟨cp, cc, hm1, hm2, h3⟩
  · have hsplit : ImageProcessor._analyze_layout h w contours hproj =
        ImageProcessor.projectionSplit h w hproj := by
      unfold ImageProcessor._analyze_layout
      rw [if_neg h2]
    rcases projectionSplit_cases h w hproj with hc | ⟨s, e, hs1, he1, hc⟩
    · exact Or.inr (Or.inr (hsplit.trans hc))
    · exact Or.inr (Or.inl ⟨s, e, hs1, he1, hsplit.trans hc⟩)

/-- Valid contours come from the input list. -/
theorem mem_validContours {h w : Nat} {x : Contour} {l : List Contour}
    (hx : x ∈ ImageProcessor.validContours h w l) : x ∈ l :=
  (List.mem_filter.mp hx).1

/-- Claim C8 amended. Every box returned by `detect_regions` lies within
the image bounds and has positive width; the Code box always has
positive height; the Problem box has positive height except that the
projection split and the half-split fallback can degenerate it to the
zero-height strip `(0, 0, w, 0)` (split row 0, resp. `h = 1`). -/
theorem claim_C8_amended_boxes (h w : Nat) (contours : List Contour) (hproj : List ℚ)
    (hh : 1 ≤ h) (hw : 1 ≤ w) (hp : hproj.length = h)
    (hc : ∀ c ∈ contours, rectInBounds h w c.rect ∧ 0 < c.rect.w ∧ 0 < c.rect.h) :
    ∀ rt r, (rt, r) ∈ ImageProcessor.detect_regions h w contours hproj →
      (rectInBounds h w r ∧ 0 < r.w) ∧
      (rt = RegionType.CODE → 0 < r.h) ∧
      (rt = RegionType.PROBLEM → 0 < r.h ∨ r = ⟨0, 0, w, 0⟩) := by
  intro rt r hmem
  unfold ImageProcessor.detect_regions at hmem
  dsimp only at hmem
  rcases analyze_cases h w contours hproj with
    ⟨cp, cc, hcp, hcc, heq⟩ | ⟨s, e, hs1, he1, heq⟩ | heq
  · rw [heq, if_neg (by simp)] at hmem
    have hcp' := hc cp (mem_validContours hcp)
    have hcc' := hc cc (mem_validContours hcc)
    simp only [List.mem_cons, List.not_mem_nil, or_false, Prod.mk.injEq] at hmem
    rcases hmem with ⟨rfl, rfl⟩ | ⟨rfl, rfl⟩
    · exact ⟨⟨hcp'.1, hcp'.2.1⟩, fun hk => absurd hk (by decide),
        fun _ => Or.inl hcp'.2.2⟩
    · exact ⟨⟨hcc'.1, hcc'.2.1⟩, fun _ => hcc'.2.2,
        fun hk => absurd hk (by decide)⟩
  · rw [heq, if_neg (by simp)] at hmem
    rw [hp] at hs1 he1
    simp only [List.mem_cons, List.not_mem_nil, or_false, Prod.mk.injEq] at hmem
    rcases hmem with ⟨rfl, rfl⟩ | ⟨rfl, rfl⟩
    · refine ⟨⟨by dsimp only [rectInBounds]; omega, by dsimp only; omega⟩,
        fun hk => absurd hk (by decide), fun _ => ?_⟩
      rcases Nat.eq_zero_or_pos ((s + e) / 2) with hz | hz
      · exact Or.inr (by rw [hz])
      · exact Or.inl hz
    · exact ⟨⟨by dsimp only [rectInBounds]; omega, by dsimp only; omega⟩,
        fun _ => by dsimp only; omega, fun hk => absurd hk (by decide)⟩
  · rw [heq, if_pos rfl] at hmem
    simp only [List.mem_cons, List.not_mem_nil, or_false, Prod.mk.injEq] at hmem
    rcases hmem with ⟨rfl, rfl⟩ | ⟨rfl, rfl⟩
    · refine ⟨⟨by dsimp only [rectInBounds]; omega, by dsimp only; omega⟩,
        fun hk => absurd hk (by decide), fun _ => ?_⟩
      rcases Nat.eq_zero_or_pos (h / 2) with hz | hz
      · exact Or.inr (by rw [hz])
      · exact Or.inl hz
    · exact ⟨⟨by dsimp only [rectInBounds]; omega, by dsimp only; omega⟩,
        fun _ => by dsimp only; omega, fun hk => absurd hk (by decide)⟩

/-- Claim C8 counterexample. On a legal 1×5 image whose layout analysis
falls through to the half-split fallback, the Problem box is the
degenerate `(0, 0, 5, 0)` (height `h // 2 = 0`), refuting the claim that
every returned box is non-degenerate for all `h ≥ 1`. -/
theorem claim_C8_counterexample_degenerate_problem_box :
    ImageProcessor.detect_regions 1 5 [] [(0 : ℚ)] =
      [(RegionType.PROBLEM, ⟨0, 0, 5, 0⟩), (RegionType.CODE, ⟨0, 0, 5, 1⟩)] ∧
    (Rect.mk 0 0 5 0).h = 0 := by
  have hA : ImageProcessor._analyze_layout 1 5 [] [(0 : ℚ)] = [] := by
    unfold ImageProcessor._analyze_layout
    rw [if_neg (by decide)]
    unfold ImageProcessor.projectionSplit
    dsimp only
    rw [if_neg (by simp [risingIdx])]
  constructor
  · unfold ImageProcessor.detect_regions
    dsimp only
    rw [hA]
    rfl
  · rfl

/-- Witness for the amended C8 at the same concrete input, on the Code
box of the fallback split. -/
theorem claim_C8_amended_boxes_witness :
    (rectInBounds 1 5 ⟨0, 0, 5, 1⟩ ∧ 0 < (Rect.mk 0 0 5 1).w) ∧
    (RegionType.CODE = RegionType.CODE → 0 < (Rect.mk 0 0 5 1).h) ∧
    (RegionType.CODE = RegionType.PROBLEM →
      0 < (Rect.mk 0 0 5 1).h ∨ Rect.mk 0 0 5 1 = ⟨0, 0, 5, 0⟩) :=
  claim_C8_amended_boxes 1 5 [] [(0 : ℚ)] (by decide) (by decide) (by decide)
    (by simp) RegionType.CODE ⟨0, 0, 5, 1⟩ (by decide)

/-- The `toList` distributes over append. -/
theorem toList_append (a b : String) : (a ++ b).toList = a.toList ++ b.toList := rfl

/-- The `String.mk` is a left inverse of `toList`. -/
theorem mk_toList (s : String) : String.mk s.toList = s := rfl

/-- A leading space is stripped. -/
theorem stripList_space_cons (a : Char) (l : List Char) (ha : isSpaceCh a = true) :
    stripList (a :: l) = stripList l := by
  unfold stripList
  rw [List.dropWhile_cons, if_pos ha]

/-- Emptying the current accumulator of the splitter: the loop's state
at a token boundary is `[]` or the separator's space. -/
theorem pyStrip_cur_append {cur : List Char} (t : String)
    (hcur : cur = [] ∨ cur = [' ']) :
    pyStrip (String.mk (cur.reverse ++ t.toList)) = pyStrip t := by
  rcases hcur with rfl | rfl
  · rfl
  · show pyStrip (String.mk (' ' :: t.toList)) = pyStrip t
    unfold pyStrip
    rw [show (String.mk (' ' :: t.toList)).toList = ' ' :: t.toList from rfl]
    rw [stripList_space_cons ' ' _ (by decide)]

/-- Processing one splittable token followed by a comma: the splitter
emits the stripped accumulated token and restarts at depth 0. -/
theorem splitGo_chunk (o c : Char) (rest : List Char) :
    ∀ (t : List Char) (d : Int) (cur : List Char) (acc : List String),
      CodeParser.tokOk o c t d = true →
      CodeParser.splitGo o c (t ++ ',' :: rest) d cur acc =
        CodeParser.splitGo o c rest 0 []
          (if pyStrip (String.mk (cur.reverse ++ t)) = "" then acc
           else pyStrip (String.mk (cur.reverse ++ t)) :: acc) := by
  intro t
  induction t with
  | nil =>
    intro d cur acc htok
    have hd : d = 0 := by
      have := of_decide_eq_true (by simpa [CodeParser.tokOk] using htok)
      exact this
    subst hd
    show CodeParser.splitGo o c (',' :: rest) 0 cur acc = _
    conv_lhs => unfold CodeParser.splitGo
    rw [if_pos ⟨rfl, rfl⟩]
    simp only [List.append_nil]
  | cons ch t' ih =>
    intro d cur acc htok
    have hcond : ¬(ch = ',' ∧ d = 0) := by
      intro hcc
      rw [CodeParser.tokOk, if_pos hcc] at htok
      cases htok
    have htok' : CodeParser.tokOk o c t' (CodeParser.bumpDepth o c ch d) = true := by
      rw [CodeParser.tokOk, if_neg hcond] at htok
      exact htok
    simp only [List.cons_append, CodeParser.splitGo, List.append_eq]
    rw [if_neg hcond, ih (CodeParser.bumpDepth o c ch d) (ch :: cur) acc htok']
    simp [List.append_assoc]

/-- Splitting a `", "`-joined list of splittable, stripped, non-empty
tokens returns exactly those tokens. -/
theorem splitGo_join (o c : Char) (ho : o ≠ ' ') (hc : c ≠ ' ') :
    ∀ (ts : List String) (cur : List Char) (acc : List String),
      (cur = [] ∨ cur = [' ']) →
      (∀ t ∈ ts, t ≠ "" ∧ pyStrip t = t ∧ CodeParser.tokOk o c t.toList 0 = true) →
      CodeParser.splitGo o c ((CodeParser.joinParams ts).toList ++ [',']) 0 cur acc =
        acc.reverse ++ ts := by
  intro ts
  induction ts with
  | nil =>
    intro cur acc hcur _
    rcases hcur with rfl | rfl
    · show CodeParser.splitGo o c [','] 0 [] acc = acc.reverse ++ []
      rw [List.append_nil]
      rfl
    · show CodeParser.splitGo o c [','] 0 [' '] acc = acc.reverse ++ []
      rw [List.append_nil]
      rfl
  | cons t ts' ih =>
    intro cur acc hcur hts
    have ht := hts t (List.mem_cons_self _ _)
    cases ts' with
    | nil =>
      show CodeParser.splitGo o c (t.toList ++ [',']) 0 cur acc = acc.reverse ++ [t]
      rw [splitGo_chunk o c [] t.toList 0 cur acc ht.2.2]
      rw [pyStrip_cur_append t hcur, ht.2.1, if_neg ht.1]
      show (t :: acc).reverse = acc.reverse ++ [t]
      simp
    | cons t2 ts'' =>
      have hjoin : (CodeParser.joinParams (t :: t2 :: ts'')).toList ++ [','] =
          t.toList ++ ',' :: (' ' :: ((CodeParser.joinParams (t2 :: ts'')).toList ++ [','])) := by
        show (t ++ ", " ++ CodeParser.joinParams (t2 :: ts'')).toList ++ [','] = _
        simp [toList_append]
      rw [hjoin]
      rw [splitGo_chunk o c _ t.toList 0 cur acc ht.2.2]
      rw [pyStrip_cur_append t hcur, ht.2.1, if_neg ht.1]
      rw [CodeParser.splitGo, if_neg (by decide)]
      have hb : CodeParser.bumpDepth o c ' ' 0 = 0 := by
        unfold CodeParser.bumpDepth
        rw [if_neg (fun hh' => ho hh'.symm), if_neg (fun hh' => hc hh'.symm)]
      rw [hb]
      rw [ih [' '] (t :: acc) (Or.inr rfl)
        (fun x hx => hts x (List.mem_cons_of_mem _ hx))]
      simp

/-- Claim C5. For every parameter list whose commas occur only inside
balanced bracket delimiters (`[`/`]` for Python, `<`/`>` for Java), the
depth-tracked splitter recovers exactly one token per source-level
parameter: no parameter is split inside a generic's brackets. -/
theorem claim_C5_depth_zero_comma_splitting :
    (∀ ts : List String,
      (∀ t ∈ ts, t ≠ "" ∧ pyStrip t = t ∧ CodeParser.tokOk '[' ']' t.toList 0 = true) →
      CodeParser.splitDepth '[' ']' (CodeParser.joinParams ts) = ts) ∧
    (∀ ts : List String,
      (∀ t ∈ ts, t ≠ "" ∧ pyStrip t = t ∧ CodeParser.tokOk '<' '>' t.toList 0 = true) →
      CodeParser.splitDepth '<' '>' (CodeParser.joinParams ts) = ts) := by
  constructor
  · intro ts hts
    unfold CodeParser.splitDepth
    rw [splitGo_join '[' ']' (by decide) (by decide) ts [] [] (Or.inl rfl) hts]
    rfl
  · intro ts hts
    unfold CodeParser.splitDepth
    rw [splitGo_join '<' '>' (by decide) (by decide) ts [] [] (Or.inl rfl) hts]
    rfl

/-- Witness for C5: a Python list with a two-argument generic type and a
Java list with a two-argument generic type are split into exactly their
two source-level parameters. -/
theorem claim_C5_depth_zero_comma_splitting_witness :
    CodeParser.splitDepth '[' ']'
      (CodeParser.joinParams ["nums: Dict[int, str]", "target: int"]) =
      ["nums: Dict[int, str]", "target: int"] ∧
    CodeParser.splitDepth '<' '>'
      (CodeParser.joinParams ["Map<String, Integer> counts", "int target"]) =
      ["Map<String, Integer> counts", "int target"] :=
  ⟨claim_C5_depth_zero_comma_splitting.1 ["nums: Dict[int, str]", "target: int"]
      (by decide),
    claim_C5_depth_zero_comma_splitting.2 ["Map<String, Integer> counts", "int target"]
      (by decide)⟩
